import Mathlib

/-!
Verification of the realtime session bridge backend (`src/backend/`):
`cognito.py` (token extraction/validation), `nova_s2s_backend.py`
(connection handlers, Bedrock stream manager, response demuxer, audio
pump, tool dispatcher) and `patient_db.py` (customer record lookup).

The Python code is shallowly embedded: strings are handled as
`List Char` (Python `str` semantics such as `str.strip`, `str.split`,
`urllib.parse.parse_qs` are modelled faithfully at the character
level), dictionaries used as records become Lean structures or
association lists, fallible code returns `Except`, and external
collaborators (the JWT library, `json.loads`, the knowledge-base and
patient-database services) are parameters constrained only by their
call-site contracts, exactly as the code uses them.
-/

namespace S2S

/-! ## Python string primitives (character-list level)

Models of the Python `str` operations used by `cognito.py`. -/

/-- Model of Python `s.strip(c)` for a one-character strip set:
removes all leading and trailing occurrences of `c`. -/
def pyStrip (c : Char) (l : List Char) : List Char :=
  ((l.dropWhile (fun x => x = c)).reverse.dropWhile (fun x => x = c)).reverse

/-- Model of Python `s.split(c)` for a one-character separator:
splits at every occurrence, keeping empty pieces, and yields `[""]`
on the empty string. -/
def pySplit (c : Char) : List Char → List (List Char)
  | [] => [[]]
  | x :: xs =>
    if x = c then [] :: pySplit c xs
    else
      match pySplit c xs with
      | h :: t => (x :: h) :: t
      | [] => [[x]]

/-- `beginsWith n l` is true when `n` is an initial segment of `l`
(model of Python `str.startswith`). -/
def beginsWith : List Char → List Char → Bool
  | [], _ => true
  | _ :: _, [] => false
  | a :: as, b :: bs => a = b && beginsWith as bs

/-- `containsSeq n l` is true when `n` occurs contiguously inside `l`
(model of Python `needle in haystack`). -/
def containsSeq (needle : List Char) : List Char → Bool
  | [] => needle.isEmpty
  | x :: xs => beginsWith needle (x :: xs) || containsSeq needle xs

/-- Characters of `l` strictly before the first occurrence of `c`. -/
def takeBefore (c : Char) (l : List Char) : List Char :=
  l.takeWhile (fun x => x != c)

/-- Characters of `l` strictly after the first occurrence of `c`,
`none` when `c` does not occur. -/
def afterFirst (c : Char) : List Char → Option (List Char)
  | [] => none
  | x :: xs => if x = c then some xs else afterFirst c xs

/-- Model of Python `s.split(c, 1)` when `c` occurs: the pieces
before and after the first occurrence of `c`. -/
def splitAtFirst (c : Char) : List Char → Option (List Char × List Char)
  | [] => none
  | x :: xs =>
    if x = c then some ([], xs)
    else (splitAtFirst c xs).map (fun pr => (x :: pr.1, pr.2))

/-- Numeric value of a hexadecimal digit (both cases), as accepted by
`urllib.parse.unquote`. -/
def hexVal (c : Char) : Option Nat :=
  if '0' ≤ c ∧ c ≤ '9' then some (c.toNat - '0'.toNat)
  else if 'a' ≤ c ∧ c ≤ 'f' then some (c.toNat - 'a'.toNat + 10)
  else if 'A' ≤ c ∧ c ≤ 'F' then some (c.toNat - 'A'.toNat + 10)
  else none

/-- `unquote_plus` first replaces every `+` with a space
(`str.replace('+', ' ')`); characters produced later by `%hh` decoding
are not rescanned, as in Python. -/
def plusToSpace (l : List Char) : List Char :=
  l.map (fun c => if c = '+' then ' ' else c)

/-- Decoding of the text following one `%`, as in
`urllib.parse.unquote`: two leading hex digits become the
corresponding (ASCII) character; otherwise the `%` is kept verbatim. -/
def pctDecodePart (part : List Char) : List Char :=
  match part with
  | a :: b :: rest =>
    match hexVal a, hexVal b with
    | some ha, some hb => Char.ofNat (16 * ha + hb) :: rest
    | _, _ => '%' :: part
  | _ => '%' :: part

/-- Model of `urllib.parse.unquote` on ASCII data: the string is split
on `%` and each later piece has its two leading hex digits decoded
(mirroring CPython's implementation of `unquote`). -/
def unquoteL (l : List Char) : List Char :=
  match pySplit '%' l with
  | [] => []
  | h :: parts => h ++ (parts.map pctDecodePart).flatten

/-- Model of `urllib.parse.unquote_plus` on ASCII data. -/
def unquoteP (l : List Char) : List Char :=
  unquoteL (plusToSpace l)

/-- Model of `urllib.parse.parse_qsl` with default options: the query
is split on `&`, empty fields are dropped, fields without `=` are
dropped, fields with a blank value are dropped
(`keep_blank_values=False`), and names and values are
`unquote_plus`-decoded. -/
def parse_qsl (qs : List Char) : List (List Char × List Char) :=
  (pySplit '&' qs).filterMap (fun nv =>
    match nv with
    | [] => none
    | _ :: _ =>
      match splitAtFirst '=' nv with
      | none => none
      | some (n, v) => if v = [] then none else some (unquoteP n, unquoteP v))

/-- `parse_qs(qs)["key"][0]`: the first value bound to `key` by
`parse_qsl`, if any. -/
def qsGet (key : List Char) (qs : List Char) : Option (List Char) :=
  match (parse_qsl qs).filter (fun pr => decide (pr.1 = key)) with
  | [] => none
  | pr :: _ => some pr.2

/-- Model of the query component produced by `urllib.parse.urlparse`:
the fragment (everything from the first `#`) is removed first, and the
query is everything after the first remaining `?` (empty when there is
no `?`). -/
def urlQuery (l : List Char) : List Char :=
  match afterFirst '?' (takeBefore '#' l) with
  | some q => q
  | none => []

/-- Model of `re.search(r"token=([^&]+)", path)`: the first position
where `token=` is followed by at least one non-`&` character; the
capture is the maximal run of non-`&` characters after the `=`. -/
def regexTokenAt : List Char → Option (List Char)
  | [] => none
  | x :: xs =>
    if beginsWith ("token=").data (x :: xs) then
      let cap := ((x :: xs).drop 6).takeWhile (fun c => c != '&')
      if cap = [] then regexTokenAt xs else some cap
    else regexTokenAt xs

/-! ## `cognito.py`: token extraction -/

/-- `cognito.extract_token_from_url`, query-branch URL parsing: when
the path starts with `/`, the code parses `"http://dummy" + path`,
otherwise it parses `path` directly, and reads the query component. -/
def extract_query (path : List Char) : List Char :=
  if path.head? = some '/' then urlQuery (("http://dummy").data ++ path)
  else urlQuery path

/-- `cognito.extract_token_from_url` (`src/backend/cognito.py:56-121`)
on character lists: split the `/`-stripped path on `/` and return the
first part that contains a `.` and is longer than 50 characters;
otherwise, when the path contains `?` and `token=`, parse the query
string for a `token` parameter, falling back to the regex
`token=([^&]+)` on the raw path; otherwise return `None`. -/
def extractTokenL (path : List Char) : Option (List Char) :=
  let parts := pySplit '/' (pyStrip '/' path)
  match parts.find? (fun p => decide ('.' ∈ p) && decide (50 < p.length)) with
  | some part => some part
  | none =>
    if decide ('?' ∈ path) && containsSeq ("token=").data path then
      match qsGet ("token").data (extract_query path) with
      | some v => some v
      | none => regexTokenAt path
    else none

/-- `cognito.extract_token_from_url` at `String` type. -/
def extract_token_from_url (path : String) : Option String :=
  (extractTokenL path.data).map (fun l => String.mk l)

/-! ## `cognito.py`: token validation

The JWT/JWKS cryptography is an external collaborator: header
inspection (`jwt.get_unverified_header`), key construction plus
decode/verify (`jwk.JWK.from_json`, `export_to_pem`, `jwt.decode`) and
the JWKS fetch (`get_cognito_jwks`, which returns `None` on a fetch
error) are parameters of the model. Every exception they raise is an
`Except.error`, matching the `try/except` in `validate_token` that
turns any failure into `(False, None)`. -/

/-- One entry of the fetched JWKS key set; only its `kid` field is
consulted by `validate_token`'s key search. -/
structure JwkKey where
  kid : Option String

/-- Result of `jwt.get_unverified_header(token)`:
the optional `kid` field. -/
structure JwtHeader where
  kid : Option String

/-- Verified claims produced by `jwt.decode`; `validate_token` reads
`token_use`, `client_id` and (for logging) `sub`, each possibly
absent. -/
structure Claims where
  token_use : Option String
  client_id : Option String
  sub : Option String

/-- Errors raised by the JWT library
(`ExpiredSignatureError`, `InvalidTokenError`, anything else). -/
inductive JwtError where
  | expired
  | invalidToken (msg : String)
  | otherErr (msg : String)

/-- Collaborator bundle for `validate_token`: `header` models
`jwt.get_unverified_header`, `decode` models key construction plus
`jwt.decode` against a chosen JWKS key, and `jwks` models the
(memoized) `get_cognito_jwks()` result, `none` when the fetch failed. -/
structure JwtEnv where
  header : String → Except JwtError JwtHeader
  decode : String → JwkKey → Except JwtError Claims
  jwks : Option (List JwkKey)

/-- The environment configuration read by `cognito.py`:
`USER_POOL_ID` and `CLIENT_ID` (empty string when unset). -/
structure CognitoConfig where
  user_pool_id : String
  client_id : String

/-- `cognito.validate_token` (`src/backend/cognito.py:124-201`): fails
closed with `(False, None)` when the token is falsy, the pool/client
configuration is missing, the header has no (truthy) `kid`, the JWKS
fetch failed, no key in the set has a matching `kid`, decoding or
verification raises, the `token_use` claim is not `id` or `access`,
or the `client_id` claim differs from `CLIENT_ID`; otherwise returns
`(True, claims)`. -/
def validate_token (env : JwtEnv) (cfg : CognitoConfig) (token : String) :
    Bool × Option Claims :=
  if token = "" then (false, none)
  else if cfg.user_pool_id = "" ∨ cfg.client_id = "" then (false, none)
  else
    match env.header token with
    | Except.error _ => (false, none)
    | Except.ok hd =>
      match hd.kid with
      | none => (false, none)
      | some kid =>
        if kid = "" then (false, none)
        else
          match env.jwks with
          | none => (false, none)
          | some ks =>
            match ks.find? (fun k => k.kid == some kid) with
            | none => (false, none)
            | some key =>
              match env.decode token key with
              | Except.error _ => (false, none)
              | Except.ok claims =>
                if ¬ (claims.token_use = some "id" ∨
                      claims.token_use = some "access") then (false, none)
                else if claims.client_id ≠ some cfg.client_id then (false, none)
                else (true, some claims)

/-- `cognito.validate_websocket_request`
(`src/backend/cognito.py:204-226`): extract the token from the path,
fail when it is absent, then validate it. -/
def validate_websocket_request (env : JwtEnv) (cfg : CognitoConfig)
    (path : String) : Bool × Option Claims :=
  match extract_token_from_url path with
  | none => (false, none)
  | some token =>
    if token = "" then (false, none)
    else
      let r := validate_token env cfg token
      if r.1 = false then (false, none) else r

/-! ## `nova_s2s_backend.py`: connection handlers

Both handlers contain the assignment pattern
`a, b = f(x) if not RUNNING_IN_DEV_MODE else True, {}`.  In Python the
conditional expression binds tighter than the tuple comma, so the
right-hand side is the pair `((f(x) if not DEV else True), {})`: the
first variable receives either the *tuple* returned by the validator
or the boolean `True`, and the second variable always receives the
literal.  A non-empty tuple is truthy in Python regardless of its
contents.  The model keeps these Python values explicit. -/

/-- The Python value bound to `is_valid` by the handlers: either the
pair returned by the cognito validator (production) or the literal
`True` (dev mode). -/
inductive PyTruthy where
  | tuple (v : Bool × Option Claims)
  | boolTrue

/-- Python truthiness of the `is_valid` value: `True` is truthy and a
2-tuple is a non-empty tuple, hence truthy whatever it contains. -/
def truthy : PyTruthy → Bool
  | PyTruthy.tuple _ => true
  | PyTruthy.boolTrue => true

/-- The Python value bound to `token` in `authenticated_handler`:
`extract_token_from_url(path)` in production (a string or `None`),
the literal `True` in dev mode. -/
inductive TokenVal where
  | pyTrue
  | strTok (s : String)
  | pyNone

/-- Python truthiness of the `token` value (`if token:`): `None` is
falsy, a string is truthy iff non-empty, `True` is truthy. -/
def tokenTruthy : TokenVal → Bool
  | TokenVal.pyTrue => true
  | TokenVal.strTok s => s ≠ ""
  | TokenVal.pyNone => false

/-- The string passed to `validate_token`; the validator is only
reached on the production path, where `token` is a string. -/
def tokenStr : TokenVal → String
  | TokenVal.strTok s => s
  | _ => ""

/-- Outcome of `authenticated_handler`
(`src/backend/nova_s2s_backend.py:559-614`). -/
inductive AuthOutcome where
  | proceeded
  | rejectedInvalid
  | rejectedNoToken

/-- The authentication decision of `authenticated_handler`
(`src/backend/nova_s2s_backend.py:576-599`): bind `token`, and when it
is truthy bind `is_valid` from
`cognito.validate_token(token) if not RUNNING_IN_DEV_MODE else True, None`
and reject (sending the unauthorized message) only when `is_valid` is
falsy; otherwise call `websocket_handler`.  With no truthy token the
no-token unauthorized message is sent instead. -/
def authenticated_handler_gate (devMode : Bool) (env : JwtEnv)
    (cfg : CognitoConfig) (path : String) : AuthOutcome :=
  let token : TokenVal :=
    if devMode then TokenVal.pyTrue
    else
      match extract_token_from_url path with
      | some s => TokenVal.strTok s
      | none => TokenVal.pyNone
  if tokenTruthy token then
    let is_valid : PyTruthy :=
      if devMode then PyTruthy.boolTrue
      else PyTruthy.tuple (validate_token env cfg (tokenStr token))
    if truthy is_valid = false then AuthOutcome.rejectedInvalid
    else AuthOutcome.proceeded
  else AuthOutcome.rejectedNoToken

/-- The right-hand side of the assignment
`is_valid, claims = cognito.validate_websocket_request(url, headers) if not RUNNING_IN_DEV_MODE else True, {}`
in `websocket_handler` (`src/backend/nova_s2s_backend.py:446`):
`is_valid` receives the conditional expression's value and `claims`
always receives the literal `{}`. -/
def websocket_auth_assign (devMode : Bool) (env : JwtEnv)
    (cfg : CognitoConfig) (url : String) :
    PyTruthy × List (String × String) :=
  (if devMode then PyTruthy.boolTrue
   else PyTruthy.tuple (validate_websocket_request env cfg url), [])

/-- Association-list lookup, the model of `dict.get(key)` for
string-valued dictionaries. -/
def lookupS : List (String × String) → String → Option String
  | [], _ => none
  | (k, v) :: rest, key => if k = key then some v else lookupS rest key

/-- `user_id = claims.get("sub") if claims else "unknown"`
(`src/backend/nova_s2s_backend.py:462`): an empty dict is falsy, so it
yields `"unknown"`; a non-empty dict yields its `sub` entry, which may
be Python `None` (here `none`). -/
def websocket_user_id (claims : List (String × String)) : Option String :=
  if claims ≠ [] then lookupS claims "sub" else some "unknown"

/-- Outcome of `websocket_handler`'s authentication gate
(`src/backend/nova_s2s_backend.py:443-488`): either the unauthorized
message is sent and the handler returns before a stream manager
exists, or a `BedrockStreamManager` is created and
`initialize_stream` is called, with `claims` as bound above. -/
inductive WsOutcome where
  | rejectedUnauthorized
  | sessionStarted (claims : List (String × String))

/-- The gate of `websocket_handler`: reject iff the bound `is_valid`
value is falsy, otherwise proceed to create the session, carrying the
bound `claims`. -/
def websocket_handler_gate (devMode : Bool) (env : JwtEnv)
    (cfg : CognitoConfig) (url : String) : WsOutcome :=
  let a := websocket_auth_assign devMode env cfg url
  if truthy a.1 = false then WsOutcome.rejectedUnauthorized
  else WsOutcome.sessionStarted a.2

/-! ## `patient_db.py` and the tool dispatcher -/

/-- Internal Python exceptions surfaced by the dispatcher:
`json.JSONDecodeError` (a subclass caught separately by the demuxer),
`NameError` (reading the unbound `query_json`), and any other
exception (`AttributeError`, `KeyError`, collaborator failures). -/
inductive PyErr where
  | jsonDecode
  | nameError
  | exc (msg : String)
deriving DecidableEq

/-- ASCII lower-casing of one character, the behaviour of Python
`str.lower` on ASCII data. -/
def pyLowerChar (c : Char) : Char :=
  if 'A' ≤ c ∧ c ≤ 'Z' then Char.ofNat (c.toNat + 32) else c

/-- Model of Python `str.lower` on ASCII data. -/
def pyLower (s : String) : String :=
  String.mk (s.data.map pyLowerChar)

/-- A patient record from `data/patients.json`: a string-keyed dict. -/
abbrev PatientRec := List (String × String)

/-- `PatientDBService.get_patient_by_name`
(`src/backend/patient_db.py:52-70`): scan the records in order and
return the first whose `Name` equals the query case-insensitively;
return Python `None` when nothing matches.  A record without a `Name`
key makes `patient.get("Name").lower()` raise `AttributeError`. -/
def get_patient_by_name : List PatientRec → String → Except PyErr (Option PatientRec)
  | [], _ => Except.ok none
  | p :: rest, name =>
    match lookupS p "Name" with
    | none => Except.error (PyErr.exc "AttributeError")
    | some n =>
      if pyLower n = pyLower name then Except.ok (some p)
      else get_patient_by_name rest name

/-- JSON-like values appearing in tool results (the knowledge-base
lookup returns a JSON object; every other branch returns strings). -/
inductive JVal where
  | str (s : String)
  | num (n : Int)
  | obj (entries : List (String × JVal))
  | arr (xs : List JVal)

/-- A tool result: the dict returned by `processToolUse`. -/
abbrev ToolResultDict := List (String × JVal)

/-- Association-list lookup for tool-result dicts
(model of `toolResult.get(key)`). -/
def lookupJ : ToolResultDict → String → Option JVal
  | [], _ => none
  | (k, v) :: rest, key => if k = key then some v else lookupJ rest key

/-- `query_json.get(key, "")` once `query_json` is bound. -/
def lookupD (d : List (String × String)) (key dflt : String) : String :=
  match lookupS d key with
  | some v => v
  | none => dflt

/-- External collaborators of `processToolUse`: `json_loads` models
`json.loads` on the tool-content string (raising
`json.JSONDecodeError` on malformed input), `kb_main` models
`knowledge_base_lookup.main` (which catches its own exceptions and
returns either the output object or the integer `1`), and `patients`
is the data behind `PatientDBService`. -/
structure Collaborators where
  json_loads : String → Except PyErr (List (String × String))
  kb_main : String → JVal
  patients : List PatientRec

/-- The `toolUse` event payload captured into the session accumulator
(`event_data["toolUse"]`): tool name, tool-use id and the raw JSON
content string. -/
structure ToolUsePayload where
  toolName : String
  toolUseId : String
  content : Option String

/-- The value of `self.toolUseContent`: initialized to the *string*
`""` in `BedrockStreamManager.__init__`
(`src/backend/nova_s2s_backend.py:90`), later overwritten with the
`toolUse` event dict.  Calling `.get` on the initial string raises
`AttributeError`. -/
inductive TUC where
  | strVal (s : String)
  | payload (pl : ToolUsePayload)

/-- `if toolUseContent.get("content"): query_json = json.loads(...)`
(`src/backend/nova_s2s_backend.py:391-393`): `none` means
`query_json` stays unbound (reading it raises `NameError`). -/
def loadQueryJson (co : Collaborators) (content : Option String) :
    Except PyErr (Option (List (String × String))) :=
  match content with
  | none => Except.ok none
  | some s =>
    if s = "" then Except.ok none
    else
      match co.json_loads s with
      | Except.ok d => Except.ok (some d)
      | Except.error e => Except.error e

/-- `BedrockStreamManager.processToolUse`
(`src/backend/nova_s2s_backend.py:385-440`): lower-case the tool name,
parse the content JSON when truthy, then route: `getproductinfo` to
the knowledge base (with `"bad query"` substituted for a blank query),
`getorderstatus` and `getlabresults` to the patient lookup (with
user-facing strings for a missing name or record),
`transfertoliveagent` to a fixed acknowledgment, anything else to the
empty dict.  No branch inserts a `status` key, and no exception from a
collaborator is caught here. -/
def processToolUse (co : Collaborators) (toolName0 : String) (tuc : TUC) :
    Except PyErr ToolResultDict :=
  match tuc with
  | TUC.strVal _ => Except.error (PyErr.exc "AttributeError")
  | TUC.payload pl =>
    match loadQueryJson co pl.content with
    | Except.error e => Except.error e
    | Except.ok qj =>
      if pyLower toolName0 = "getproductinfo" then
        match qj with
        | none => Except.error PyErr.nameError
        | some d =>
          Except.ok [("result", co.kb_main
            (if lookupD d "query" "" = "" then "bad query"
             else lookupD d "query" ""))]
      else if pyLower toolName0 = "getorderstatus" then
        match qj with
        | none => Except.error PyErr.nameError
        | some d =>
          if lookupD d "customerName" "" = "" then
            Except.ok [("result", JVal.str "Customer not found.ask for customer name.")]
          else
            match get_patient_by_name co.patients (lookupD d "customerName" "") with
            | Except.error e => Except.error e
            | Except.ok none =>
              Except.ok [("result", JVal.str "No orders found for the customer.")]
            | Except.ok (some p) =>
              match lookupS p "OrderStatus" with
              | none => Except.error (PyErr.exc "KeyError")
              | some os =>
                match lookupS p "Action" with
                | none => Except.error (PyErr.exc "KeyError")
                | some ac =>
                  Except.ok [("result",
                    JVal.str ("Order Status: " ++ os ++ " , Action : " ++ ac))]
      else if pyLower toolName0 = "getlabresults" then
        match qj with
        | none => Except.error PyErr.nameError
        | some d =>
          if lookupD d "customerName" "" = "" then
            Except.ok [("result", JVal.str "No customer found. ask for customer Name")]
          else
            match get_patient_by_name co.patients (lookupD d "customerName" "") with
            | Except.error e => Except.error e
            | Except.ok none =>
              Except.ok [("result", JVal.str "No lab results found.")]
            | Except.ok (some p) =>
              match lookupS p "LabResult" with
              | none => Except.error (PyErr.exc "KeyError")
              | some lr => Except.ok [("result", JVal.str lr)]
      else if pyLower toolName0 = "transfertoliveagent" then
        match qj with
        | none => Except.error PyErr.nameError
        | some _ =>
          Except.ok [("result", JVal.str "Transferring customer to live agent.")]
      else Except.ok []

/-! ## `nova_s2s_backend.py`: response demuxer (`_process_responses`)

The loop body receives one chunk from the stream, JSON-decodes it, and
dispatches on the single event variant present (the wire protocol puts
exactly one variant key under `"event"`).  `uuid.uuid4()` is modelled
as a fresh-identifier supply: the session state carries a counter and
each generated content name is the current counter value. -/

/-- The decoded event variants `_process_responses` distinguishes
(`src/backend/nova_s2s_backend.py:241-285`); any other variant falls
through the `elif` chain with no effect. -/
inductive ModelEvent where
  | contentStart (additionalModelFields : Option String)
  | textOutput (content : String) (role : String)
  | toolUse (pl : ToolUsePayload)
  | contentEnd (tyOpt : Option String)
  | otherEvent (tag : String)

/-- One received chunk after the decode attempt: undecodable raw text,
decoded JSON without an `"event"` key, or a decoded event. -/
inductive Frame where
  | undecodable (raw : String)
  | noEvent (raw : String)
  | event (raw : String) (e : ModelEvent)

/-- One iteration's receive outcome
(`src/backend/nova_s2s_backend.py:229-378`): a chunk with bytes, a
result without bytes (skipped), `StopAsyncIteration` (stream end), or
a receive exception. -/
inductive Inbound where
  | frame (f : Frame)
  | emptyResult
  | streamEnd
  | recvError (msg : String)

/-- Events the demuxer sends to the model stream: the tool-result
triple (`src/backend/nova_s2s_backend.py:300-362`).  The constant
fields of the `contentStart` event (`interactive=True`, `type=TOOL`,
`role=TOOL`, `type=TEXT`, `mediaType=text/plain`) are fixed by the
code; the varying fields are carried here.  The `toolResult` event
carries the dispatcher output (serialized by `json.dumps` on the
wire) and the computed status. -/
inductive OutEvent where
  | toolContentStart (promptName : Option String) (contentName : Nat)
      (toolUseId : String)
  | toolResultEvent (promptName : Option String) (contentName : Nat)
      (content : ToolResultDict) (status : String)
  | toolContentEnd (promptName : Option String) (contentName : Nat)

/-- Items placed on the output queue for relay to the client: the
decoded JSON verbatim, or `{"raw_data": response_data}` when decoding
(or tool-content parsing) raised `json.JSONDecodeError`. -/
inductive OutItem where
  | json (f : Frame)
  | rawData (raw : String)

/-- Loop control after one iteration: continue with the next chunk or
leave the loop (`break`). -/
inductive Ctl where
  | next
  | exitLoop

/-- The session fields of `BedrockStreamManager` the demuxer reads and
writes (`src/backend/nova_s2s_backend.py:85-92`), plus the fresh-id
counter modelling `uuid.uuid4()`. -/
structure DemuxState where
  prompt_name : Option String
  toolName : String
  toolUseId : String
  toolUseContent : TUC
  nextId : Nat

/-- The manager state right after `__init__`
(`src/backend/nova_s2s_backend.py:85-92`): no prompt name, empty tool
name and id, and `toolUseContent` the empty *string*. -/
def initDemuxState : DemuxState :=
  ⟨none, "", "", TUC.strVal "", 0⟩

/-- Result of one demuxer loop iteration. -/
structure StepOut where
  st : DemuxState
  sent : List OutEvent
  outq : List OutItem
  ctl : Ctl

/-- `status = "error" if toolResult.get("status") == "error" else "success"`
(`src/backend/nova_s2s_backend.py:330-334`). -/
def toolStatus (r : ToolResultDict) : String :=
  match lookupJ r "status" with
  | some (JVal.str s) => if s = "error" then "error" else "success"
  | _ => "success"

/-- One iteration of `_process_responses`
(`src/backend/nova_s2s_backend.py:229-378`): stream end or a receive
error breaks the loop; an undecodable chunk enqueues a raw-data item;
`toolUse` overwrites the accumulator (content, name, id, in that
order); `contentEnd` with `type == "TOOL"` dispatches
`processToolUse`, and on a normal return generates a fresh content
name and sends the contentStart/toolResult/contentEnd triple to the
stream before enqueuing the decoded event for the client.  A
`json.JSONDecodeError` from the dispatch is caught by the decode
handler (raw-data item, loop continues); any other exception reaches
the iteration handler, which logs and breaks. -/
def demuxStep (co : Collaborators) (s : DemuxState) (i : Inbound) : StepOut :=
  match i with
  | Inbound.streamEnd => ⟨s, [], [], Ctl.exitLoop⟩
  | Inbound.recvError _ => ⟨s, [], [], Ctl.exitLoop⟩
  | Inbound.emptyResult => ⟨s, [], [], Ctl.next⟩
  | Inbound.frame f =>
    match f with
    | Frame.undecodable raw =>
      ⟨s, [], [OutItem.rawData raw], Ctl.next⟩
    | Frame.noEvent raw =>
      ⟨s, [], [OutItem.json (Frame.noEvent raw)], Ctl.next⟩
    | Frame.event raw e =>
      match e with
      | ModelEvent.contentStart amf =>
        ⟨s, [], [OutItem.json (Frame.event raw (ModelEvent.contentStart amf))],
         Ctl.next⟩
      | ModelEvent.textOutput c role =>
        ⟨s, [], [OutItem.json (Frame.event raw (ModelEvent.textOutput c role))],
         Ctl.next⟩
      | ModelEvent.toolUse pl =>
        ⟨{ s with toolUseContent := TUC.payload pl,
                  toolName := pl.toolName,
                  toolUseId := pl.toolUseId },
         [], [OutItem.json (Frame.event raw (ModelEvent.toolUse pl))], Ctl.next⟩
      | ModelEvent.contentEnd tyOpt =>
        if tyOpt = some "TOOL" then
          match processToolUse co s.toolName s.toolUseContent with
          | Except.ok r =>
            let cid := s.nextId
            ⟨{ s with nextId := s.nextId + 1 },
             [OutEvent.toolContentStart s.prompt_name cid s.toolUseId,
              OutEvent.toolResultEvent s.prompt_name cid r (toolStatus r),
              OutEvent.toolContentEnd s.prompt_name cid],
             [OutItem.json (Frame.event raw (ModelEvent.contentEnd tyOpt))],
             Ctl.next⟩
          | Except.error PyErr.jsonDecode =>
            ⟨s, [], [OutItem.rawData raw], Ctl.next⟩
          | Except.error _ => ⟨s, [], [], Ctl.exitLoop⟩
        else
          ⟨s, [], [OutItem.json (Frame.event raw (ModelEvent.contentEnd tyOpt))],
           Ctl.next⟩
      | ModelEvent.otherEvent tag =>
        ⟨s, [], [OutItem.json (Frame.event raw (ModelEvent.otherEvent tag))],
         Ctl.next⟩

/-- Accumulated result of running the demuxer loop over a sequence of
receive outcomes; `broke` records whether the loop ended by `break`
(after which `finally` clears `is_active`). -/
structure RunOut where
  st : DemuxState
  sent : List OutEvent
  outq : List OutItem
  broke : Bool

/-- The demuxer loop: iterate `demuxStep` until a `break` or until the
inbound sequence is exhausted. -/
def demuxRun (co : Collaborators) : DemuxState → List Inbound → RunOut
  | s, [] => ⟨s, [], [], false⟩
  | s, i :: rest =>
    let o := demuxStep co s i
    match o.ctl with
    | Ctl.exitLoop => ⟨o.st, o.sent, o.outq, true⟩
    | Ctl.next =>
      let r := demuxRun co o.st rest
      ⟨r.st, o.sent ++ r.sent, o.outq ++ r.outq, r.broke⟩

/-- The content name carried by a stream-bound tool event. -/
def outEventId : OutEvent → Nat
  | OutEvent.toolContentStart _ cid _ => cid
  | OutEvent.toolResultEvent _ cid _ _ => cid
  | OutEvent.toolContentEnd _ cid => cid

/-- Content names of a list of stream-bound events. -/
def sentIds (es : List OutEvent) : List Nat :=
  es.map outEventId

/-- Inbound items whose processing never touches the tool accumulator
or the id counter, sends nothing to the stream, and continues the
loop: everything except `toolUse`, `contentEnd(type=TOOL)`, stream end
and receive errors. -/
def neutral : Inbound → Bool
  | Inbound.emptyResult => true
  | Inbound.frame (Frame.undecodable _) => true
  | Inbound.frame (Frame.noEvent _) => true
  | Inbound.frame (Frame.event _ (ModelEvent.contentStart _)) => true
  | Inbound.frame (Frame.event _ (ModelEvent.textOutput _ _)) => true
  | Inbound.frame (Frame.event _ (ModelEvent.otherEvent _)) => true
  | Inbound.frame (Frame.event _ (ModelEvent.contentEnd tyOpt)) =>
      decide (tyOpt ≠ some "TOOL")
  | _ => false

/-! ## `nova_s2s_backend.py`: stream manager client lifecycle -/

/-- The client-lifecycle fields of `BedrockStreamManager`
(`src/backend/nova_s2s_backend.py:71-93`): `bedrock_client` (here a
construction identity, `none` for Python `None`) and
`last_credential_refresh` (set to `0` in `__init__`).  `clientCtr` is
a supply of construction identities so that reconstruction is
observable. -/
structure StreamMgrState where
  bedrock_client : Option Nat
  last_credential_refresh : Nat
  clientCtr : Nat

/-- The manager state right after `__init__`:
`bedrock_client = None`, `last_credential_refresh = 0`. -/
def initManagerState : StreamMgrState :=
  ⟨none, 0, 0⟩

/-- `BedrockStreamManager._initialize_client`
(`src/backend/nova_s2s_backend.py:94-103`): constructs a fresh
`BedrockRuntimeClient` and stores it. -/
def _initialize_client (s : StreamMgrState) : StreamMgrState :=
  { s with bedrock_client := some s.clientCtr, clientCtr := s.clientCtr + 1 }

/-- The client-construction decision at the top of
`BedrockStreamManager.initialize_stream`
(`src/backend/nova_s2s_backend.py:105-108`):
`if not self.bedrock_client: self._initialize_client()`.  `now` is the
current time in seconds; the code never reads it (nor
`last_credential_refresh`). -/
def initialize_stream_clientStep (now : Nat) (s : StreamMgrState) :
    StreamMgrState :=
  if s.bedrock_client = none then _initialize_client s else s

/-! ## `nova_s2s_backend.py`: audio input pump -/

/-- The dict enqueued by `add_audio_chunk`
(`src/backend/nova_s2s_backend.py:215-224`); each field may be Python
`None`. -/
structure AudioItem where
  prompt_name : Option String
  content_name : Option String
  audio_bytes : Option String

/-- `BedrockStreamManager.add_audio_chunk`: a non-blocking FIFO
enqueue (`audio_input_queue.put_nowait`). -/
def add_audio_chunk (q : List AudioItem)
    (prompt_name content_name audio_data : Option String) : List AudioItem :=
  q ++ [⟨prompt_name, content_name, audio_data⟩]

/-- The `audioInput` event built by `_process_audio_input`
(`src/backend/nova_s2s_backend.py:191-205`), always with
`role = "USER"`. -/
structure AudioEvent where
  promptName : String
  contentName : String
  content : String
  role : String

/-- One item's handling in `_process_audio_input`
(`src/backend/nova_s2s_backend.py:183-208`): when any of the three
fields is falsy (absent or empty) the item is skipped with a warning;
otherwise the `audioInput` event is built and sent. -/
def mkAudioEvent (it : AudioItem) : Option AudioEvent :=
  match it.audio_bytes, it.prompt_name, it.content_name with
  | some a, some p, some c =>
    if a = "" ∨ p = "" ∨ c = "" then none
    else some ⟨p, c, a, "USER"⟩
  | _, _, _ => none

/-- The events `_process_audio_input` forwards to the stream, in
order, when draining the queue contents `q`: well-formed items produce
their event in FIFO order, malformed items are dropped. -/
def processAudioQueue (q : List AudioItem) : List AudioEvent :=
  q.filterMap mkAudioEvent

/-! ## Concrete instances used in evaluations -/

/-- A 90-character JWT-shaped token (contains `.`, longer than 50). -/
def tok90 : String :=
  "abcd.efghabcd.efghabcd.efghabcd.efghabcd.efghabcd.efghabcd.efghabcd.efghabcd.efghabcd.efgh"

/-- A JWT environment in which the JWKS fetch failed
(`get_cognito_jwks()` returned `None`): header inspection succeeds,
but validation must fail closed. -/
def envNoJwks : JwtEnv :=
  ⟨fun _ => Except.ok ⟨some "kid1"⟩,
   fun _ _ => Except.error (JwtError.otherErr "unreachable"),
   none⟩

/-- A JWT environment whose fetched key set is empty, so no `kid` can
match. -/
def envEmptyKeys : JwtEnv :=
  ⟨fun _ => Except.ok ⟨some "kid1"⟩,
   fun _ _ => Except.error (JwtError.otherErr "unreachable"),
   some []⟩

/-- A populated cognito configuration. -/
def cfg1 : CognitoConfig :=
  ⟨"pool1", "client1"⟩

/-- The JSON content string `{"customerName": "Jaime Lopez"}` of a
`getorderstatus` invocation. -/
def jsonOrder : String :=
  "\x7b\"customerName\": \"Jaime Lopez\"\x7d"

/-- The JSON content string `{}`. -/
def jsonEmpty : String :=
  "\x7b\x7d"

/-- Collaborators for which `json.loads` behaves as on the two JSON
strings above and the patient database holds one record *without* a
`Name` key, so the lookup raises `AttributeError`. -/
def coNoName : Collaborators :=
  ⟨fun s => if s = jsonOrder then Except.ok [("customerName", "Jaime Lopez")]
            else Except.error PyErr.jsonDecode,
   fun _ => JVal.str "",
   [[("OrderStatus", "Shipped")]]⟩

/-- Collaborators with one complete record for Jaime Lopez. -/
def coJaime : Collaborators :=
  ⟨fun s => if s = jsonOrder then Except.ok [("customerName", "Jaime Lopez")]
            else Except.error PyErr.jsonDecode,
   fun _ => JVal.str "",
   [[("Name", "Jaime Lopez"), ("OrderStatus", "Shipped"),
     ("Action", "Deliver on Monday")]]⟩

/-- Collaborators with an empty patient database. -/
def coNoOrders : Collaborators :=
  ⟨fun s => if s = jsonOrder then Except.ok [("customerName", "Jaime Lopez")]
            else Except.error PyErr.jsonDecode,
   fun _ => JVal.str "",
   []⟩

/-- Collaborators whose `json.loads` always raises
`json.JSONDecodeError`, and which parse `{}` to the empty dict. -/
def coBadJson : Collaborators :=
  ⟨fun _ => Except.error PyErr.jsonDecode,
   fun _ => JVal.str "",
   []⟩

/-- Collaborators parsing `{}` to the empty dict, for the
`transfertoliveagent` route. -/
def coTransfer : Collaborators :=
  ⟨fun s => if s = jsonEmpty then Except.ok []
            else Except.error PyErr.jsonDecode,
   fun _ => JVal.str "",
   []⟩

/-- A demuxer state holding a pending `getorderstatus` tool use. -/
def stOrder : DemuxState :=
  ⟨some "p1", "getorderstatus", "tu1",
   TUC.payload ⟨"getorderstatus", "tu1", some jsonOrder⟩, 0⟩

/-- A demuxer state holding a pending tool use whose content string is
not valid JSON. -/
def stBadJson : DemuxState :=
  ⟨none, "getorderstatus", "tu2",
   TUC.payload ⟨"getorderstatus", "tu2", some "notjson"⟩, 5⟩

/-! # Theorems -/

/-- C9: in every execution of `websocket_handler` that reaches the
post-authentication code, the `claims` variable is bound to the empty
mapping (the tuple-unpacking of
`... if not RUNNING_IN_DEV_MODE else True, {}` always assigns the
literal `{}` to `claims`), so the user identity read from it via
`claims.get("sub") if claims else "unknown"` is always `"unknown"` —
regardless of dev mode, of the validator's outcome, and of the claims
it produced. -/
theorem C9_claims_always_empty (devMode : Bool) (env : JwtEnv)
    (cfg : CognitoConfig) (url : String) :
    (websocket_auth_assign devMode env cfg url).2 = []
    ∧ websocket_user_id (websocket_auth_assign devMode env cfg url).2
        = some "unknown" :=
  ⟨rfl, rfl⟩

/-- C1 (code bug): with `DEV_MODE` off, a request whose path carries a
token that `validate_token` rejects (here: the JWKS key set is
unavailable) is *not* rejected.  `validate_token` returns
`(False, None)`, but both handlers bind `is_valid` to that whole tuple
(Python parses `f(x) if cond else True, None` as `(f(x) if cond else
True), None`), and a non-empty tuple is truthy, so the unauthorized
branch is dead code: `authenticated_handler` proceeds into
`websocket_handler`, which creates the session and initializes the
stream. -/
theorem C1_dead_reject_branch :
    validate_token envNoJwks cfg1 tok90 = (false, none)
    ∧ extract_token_from_url ("/api/" ++ tok90) = some tok90
    ∧ authenticated_handler_gate false envNoJwks cfg1 ("/api/" ++ tok90)
        = AuthOutcome.proceeded
    ∧ websocket_handler_gate false envNoJwks cfg1 ("/api/" ++ tok90)
        = WsOutcome.sessionStarted [] :=
  ⟨rfl, rfl, rfl, rfl⟩

/-- C3 (counterexample): after the client is first constructed at time
100 with `last_credential_refresh = 0`, calling the
`initialize_stream` construction step at time 2000 — more than 1500
seconds later — keeps the *same* client (identity 0; a reconstruction
would store identity 1) and never updates the timestamp: the claimed
1500-second freshness policy does not exist in
`initialize_stream`. -/
theorem C3_counterexample :
    (initialize_stream_clientStep 2000
        (initialize_stream_clientStep 100 initManagerState)).bedrock_client
      = some 0
    ∧ (initialize_stream_clientStep 2000
        (initialize_stream_clientStep 100 initManagerState)).last_credential_refresh
      = 0
    ∧ 2000 - (initialize_stream_clientStep 100
        initManagerState).last_credential_refresh > 1500 :=
  ⟨rfl, rfl, by decide⟩

/-- C3 (amended): on every call to `initialize_stream`, the client is
constructed iff it is absent; an existing client is always reused, no
matter how much time has elapsed, and `last_credential_refresh` (set
to 0 in `__init__`) is never updated. -/
theorem C3_client_constructed_iff_absent (now : Nat) (s : StreamMgrState) :
    (s.bedrock_client = none →
      initialize_stream_clientStep now s = _initialize_client s)
    ∧ (∀ c, s.bedrock_client = some c →
        initialize_stream_clientStep now s = s)
    ∧ (initialize_stream_clientStep now s).last_credential_refresh
        = s.last_credential_refresh := by
  unfold initialize_stream_clientStep
  refine ⟨fun h => if_pos h, fun c hc => ?_, ?_⟩
  · rw [if_neg]
    simp [hc]
  · split
    · rfl
    · rfl

/-- Witness for the amended C3 at a concrete state: a client
constructed long ago (timestamp 0, current time 2000) is reused. -/
theorem C3_client_constructed_iff_absent_witness :
    initialize_stream_clientStep 2000 ⟨some 0, 0, 1⟩ = ⟨some 0, 0, 1⟩ :=
  (C3_client_constructed_iff_absent 2000 ⟨some 0, 0, 1⟩).2.1 0 rfl

/-- C2 (counterexample): a `getorderstatus` dispatch against a patient
record lacking a `Name` key makes the collaborator call
(`get_patient` → `patient.get("Name").lower()`) raise
`AttributeError`; `_process_responses` has no handler between the
dispatch and its per-iteration `except`, so the demuxer sends *no*
contentStart/toolResult/contentEnd triple and its loop terminates
(`break`) — contrary to the claim that the exception is converted to
an error-status triple and the loop continues. -/
theorem C2_counterexample :
    processToolUse coNoName stOrder.toolName stOrder.toolUseContent
      = Except.error (PyErr.exc "AttributeError")
    ∧ demuxStep coNoName stOrder
        (Inbound.frame (Frame.event "rawCE" (ModelEvent.contentEnd (some "TOOL"))))
      = ⟨stOrder, [], [], Ctl.exitLoop⟩ :=
  ⟨rfl, rfl⟩

/-- C2 (amended): an exception raised by `processToolUse` is not
converted to an error toolResult.  A `json.JSONDecodeError` (from
parsing the tool content) is caught by the frame-decode handler, which
enqueues a raw-data item for the client, sends nothing to the model
stream, and continues the loop; any other exception reaches the
receive-loop handler, which logs it and breaks the loop, likewise
sending nothing. -/
theorem C2_dispatch_exception_breaks (co : Collaborators) (s : DemuxState)
    (raw : String) (e : PyErr)
    (h : processToolUse co s.toolName s.toolUseContent = Except.error e) :
    demuxStep co s
        (Inbound.frame (Frame.event raw (ModelEvent.contentEnd (some "TOOL"))))
      = if e = PyErr.jsonDecode then ⟨s, [], [OutItem.rawData raw], Ctl.next⟩
        else ⟨s, [], [], Ctl.exitLoop⟩ := by
  simp only [demuxStep, h]
  cases e <;> simp

/-- Witness for the amended C2: a malformed tool-content string makes
`json.loads` raise `json.JSONDecodeError`, and the step enqueues a
raw-data item, sends no triple and continues. -/
theorem C2_dispatch_exception_breaks_witness :
    demuxStep coBadJson stBadJson
        (Inbound.frame (Frame.event "rawX" (ModelEvent.contentEnd (some "TOOL"))))
      = ⟨stBadJson, [], [OutItem.rawData "rawX"], Ctl.next⟩ := by
  have h := C2_dispatch_exception_breaks coBadJson stBadJson "rawX"
    PyErr.jsonDecode rfl
  simpa using h

/-- C6 (counterexample): with a complete record for Jaime Lopez
present, the `getorderstatus` result string is
`"Order Status: Shipped , Action : Deliver on Monday"` — the code's
f-string (`src/backend/nova_s2s_backend.py:414`) puts a space before
the colon after `Action`, so the claimed exact format
`"Order Status: <status> , Action: <action>"` does not match. -/
theorem C6_counterexample :
    processToolUse coJaime "getorderstatus"
        (TUC.payload ⟨"getorderstatus", "tu3", some jsonOrder⟩)
      = Except.ok [("result",
          JVal.str "Order Status: Shipped , Action : Deliver on Monday")]
    ∧ ("Order Status: Shipped , Action : Deliver on Monday" : String)
        ≠ "Order Status: Shipped , Action: Deliver on Monday" :=
  ⟨rfl, by decide⟩

/-- Helper: the `query_json` binding when the content string is truthy
and parses. -/
theorem loadQueryJson_ok (co : Collaborators) (content : String)
    (d : List (String × String)) (hc : content ≠ "")
    (hload : co.json_loads content = Except.ok d) :
    loadQueryJson co (some content) = Except.ok (some d) := by
  simp [loadQueryJson, hc, hload]

/-- C6 (amended): dispatching `getorderstatus` with content
`{"customerName": name}`: with a matching record the result is
`"Order Status: <status> , Action : <action>"` (space before the
second colon) and the toolResult status is `"success"`; with no
matching record the result is `"No orders found for the customer."`,
still with status `"success"`. -/
theorem C6_order_status_strings (co co2 : Collaborators)
    (content name os ac tuid tuid2 : String) (p : PatientRec)
    (hc : content ≠ "")
    (hload : co.json_loads content = Except.ok [("customerName", name)])
    (hname : name ≠ "")
    (hfound : get_patient_by_name co.patients name = Except.ok (some p))
    (hos : lookupS p "OrderStatus" = some os)
    (hac : lookupS p "Action" = some ac)
    (hload2 : co2.json_loads content = Except.ok [("customerName", name)])
    (hnone : get_patient_by_name co2.patients name = Except.ok none) :
    processToolUse co "getorderstatus"
        (TUC.payload ⟨"getorderstatus", tuid, some content⟩)
      = Except.ok [("result",
          JVal.str ("Order Status: " ++ os ++ " , Action : " ++ ac))]
    ∧ toolStatus [("result",
          JVal.str ("Order Status: " ++ os ++ " , Action : " ++ ac))] = "success"
    ∧ processToolUse co2 "getorderstatus"
        (TUC.payload ⟨"getorderstatus", tuid2, some content⟩)
      = Except.ok [("result", JVal.str "No orders found for the customer.")]
    ∧ toolStatus [("result", JVal.str "No orders found for the customer.")]
        = "success" := by
  have hd : lookupD [("customerName", name)] "customerName" "" = name := by
    simp [lookupD, lookupS]
  refine ⟨?_, rfl, ?_, rfl⟩
  · simp only [processToolUse, loadQueryJson_ok co content _ hc hload]
    rw [show pyLower "getorderstatus" = "getorderstatus" from rfl]
    rw [if_neg (by decide : ¬("getorderstatus" : String) = "getproductinfo"),
        if_pos rfl, hd, if_neg hname]
    simp [hfound, hos, hac]
  · simp only [processToolUse, loadQueryJson_ok co2 content _ hc hload2]
    rw [show pyLower "getorderstatus" = "getorderstatus" from rfl]
    rw [if_neg (by decide : ¬("getorderstatus" : String) = "getproductinfo"),
        if_pos rfl, hd, if_neg hname]
    simp [hnone]

/-- Witness for the amended C6, at the Jaime Lopez record and an empty
database. -/
theorem C6_order_status_strings_witness :
    processToolUse coJaime "getorderstatus"
        (TUC.payload ⟨"getorderstatus", "tu3", some jsonOrder⟩)
      = Except.ok [("result",
          JVal.str ("Order Status: " ++ "Shipped" ++ " , Action : "
            ++ "Deliver on Monday"))]
    ∧ toolStatus [("result",
          JVal.str ("Order Status: " ++ "Shipped" ++ " , Action : "
            ++ "Deliver on Monday"))] = "success"
    ∧ processToolUse coNoOrders "getorderstatus"
        (TUC.payload ⟨"getorderstatus", "tu3", some jsonOrder⟩)
      = Except.ok [("result", JVal.str "No orders found for the customer.")]
    ∧ toolStatus [("result", JVal.str "No orders found for the customer.")]
        = "success" :=
  C6_order_status_strings coJaime coNoOrders jsonOrder "Jaime Lopez"
    "Shipped" "Deliver on Monday" "tu3" "tu3"
    [("Name", "Jaime Lopez"), ("OrderStatus", "Shipped"),
     ("Action", "Deliver on Monday")]
    (by decide) rfl (by decide) rfl rfl rfl rfl rfl

/-- C10: whenever `processToolUse` returns normally, its result dict
contains no `status` key (every branch returns `{}` or
`{"result": ...}`), so the demuxer's status computation always yields
`"success"` on normal returns. -/
theorem C10_normal_result_success (co : Collaborators) (toolName : String)
    (tuc : TUC) (r : ToolResultDict)
    (h : processToolUse co toolName tuc = Except.ok r) :
    lookupJ r "status" = none ∧ toolStatus r = "success" := by
  have hr : r = [] ∨ ∃ v, r = [("result", v)] := by
    unfold processToolUse at h
    rcases tuc with s | pl
    · simp at h
    split at h
    · exact absurd h (by simp)
    split at h
    · exact absurd h (by simp)
    by_cases c1 : pyLower toolName = "getproductinfo"
    · rw [if_pos c1] at h
      split at h
      · exact absurd h (by simp)
      · have h2 := h.symm
        simp only [Except.ok.injEq] at h2
        exact Or.inr ⟨_, h2⟩
    rw [if_neg c1] at h
    by_cases c2 : pyLower toolName = "getorderstatus"
    · rw [if_pos c2] at h
      split at h
      · exact absurd h (by simp)
      rename_i d heq2
      by_cases c5 : lookupD d "customerName" "" = ""
      · rw [if_pos c5] at h
        have h2 := h.symm
        simp only [Except.ok.injEq] at h2
        exact Or.inr ⟨_, h2⟩
      rw [if_neg c5] at h
      split at h
      · exact absurd h (by simp)
      · have h2 := h.symm
        simp only [Except.ok.injEq] at h2
        exact Or.inr ⟨_, h2⟩
      split at h
      · exact absurd h (by simp)
      split at h
      · exact absurd h (by simp)
      have h2 := h.symm
      simp only [Except.ok.injEq] at h2
      exact Or.inr ⟨_, h2⟩
    rw [if_neg c2] at h
    by_cases c3 : pyLower toolName = "getlabresults"
    · rw [if_pos c3] at h
      split at h
      · exact absurd h (by simp)
      rename_i d heq2
      by_cases c5 : lookupD d "customerName" "" = ""
      · rw [if_pos c5] at h
        have h2 := h.symm
        simp only [Except.ok.injEq] at h2
        exact Or.inr ⟨_, h2⟩
      rw [if_neg c5] at h
      split at h
      · exact absurd h (by simp)
      · have h2 := h.symm
        simp only [Except.ok.injEq] at h2
        exact Or.inr ⟨_, h2⟩
      split at h
      · exact absurd h (by simp)
      have h2 := h.symm
      simp only [Except.ok.injEq] at h2
      exact Or.inr ⟨_, h2⟩
    rw [if_neg c3] at h
    by_cases c4 : pyLower toolName = "transfertoliveagent"
    · rw [if_pos c4] at h
      split at h
      · exact absurd h (by simp)
      · have h2 := h.symm
        simp only [Except.ok.injEq] at h2
        exact Or.inr ⟨_, h2⟩
    rw [if_neg c4] at h
    have h2 := h.symm
    simp only [Except.ok.injEq] at h2
    exact Or.inl h2
  rcases hr with rfl | ⟨v, rfl⟩
  · exact ⟨rfl, rfl⟩
  · exact ⟨rfl, rfl⟩

/-- Witness for C10 at the `transfertoliveagent` route. -/
theorem C10_normal_result_success_witness :
    lookupJ [("result", JVal.str "Transferring customer to live agent.")]
        "status" = none
    ∧ toolStatus [("result", JVal.str "Transferring customer to live agent.")]
        = "success" :=
  C10_normal_result_success coTransfer "transfertoliveagent"
    (TUC.payload ⟨"transfertoliveagent", "tuX", some jsonEmpty⟩) _ rfl

/-- C8: the audio path is FIFO.  Enqueuing chunks A, B, C (in that
order) onto any existing queue makes the pump forward exactly their
three `audioInput` events, in the order A, B, C; a malformed chunk
interleaved between them is skipped without disturbing the relative
order of the rest. -/
theorem C8_audio_fifo (q : List AudioItem)
    (pA cA aA pB cB aB pC cC aC : Option String) (eA eB eC : AudioEvent)
    (m : AudioItem)
    (hA : mkAudioEvent ⟨pA, cA, aA⟩ = some eA)
    (hB : mkAudioEvent ⟨pB, cB, aB⟩ = some eB)
    (hC : mkAudioEvent ⟨pC, cC, aC⟩ = some eC)
    (hm : mkAudioEvent m = none) :
    processAudioQueue
        (add_audio_chunk (add_audio_chunk (add_audio_chunk q pA cA aA)
          pB cB aB) pC cC aC)
      = processAudioQueue q ++ [eA, eB, eC]
    ∧ processAudioQueue
        (add_audio_chunk (add_audio_chunk (add_audio_chunk q pA cA aA ++ [m])
          pB cB aB) pC cC aC)
      = processAudioQueue q ++ [eA, eB, eC] := by
  constructor <;>
    simp [processAudioQueue, add_audio_chunk, List.filterMap_append,
      List.filterMap_cons, hA, hB, hC, hm]

/-- Witness for C8: three well-formed chunks and one chunk missing its
prompt name. -/
theorem C8_audio_fifo_witness :
    processAudioQueue
        (add_audio_chunk (add_audio_chunk (add_audio_chunk []
          (some "p") (some "c") (some "a1")) (some "p") (some "c") (some "a2"))
          (some "p") (some "c") (some "a3"))
      = processAudioQueue []
          ++ [⟨"p", "c", "a1", "USER"⟩, ⟨"p", "c", "a2", "USER"⟩,
              ⟨"p", "c", "a3", "USER"⟩]
    ∧ processAudioQueue
        (add_audio_chunk (add_audio_chunk (add_audio_chunk []
          (some "p") (some "c") (some "a1") ++ [⟨none, some "c", some "a"⟩])
          (some "p") (some "c") (some "a2")) (some "p") (some "c") (some "a3"))
      = processAudioQueue []
          ++ [⟨"p", "c", "a1", "USER"⟩, ⟨"p", "c", "a2", "USER"⟩,
              ⟨"p", "c", "a3", "USER"⟩] :=
  C8_audio_fifo [] (some "p") (some "c") (some "a1") (some "p") (some "c")
    (some "a2") (some "p") (some "c") (some "a3") _ _ _
    ⟨none, some "c", some "a"⟩ rfl rfl rfl rfl

/-- Inversion on the success path of `validate_token`: a `(True,
claims)` result pins down every guard along the way. -/
theorem validate_token_ok_inversion (env : JwtEnv) (cfg : CognitoConfig)
    (token : String) (c : Claims)
    (h : validate_token env cfg token = (true, some c)) :
    ∃ hd kid ks key, env.header token = Except.ok hd ∧ hd.kid = some kid ∧
      env.jwks = some ks ∧ ks.find? (fun k => k.kid == some kid) = some key ∧
      env.decode token key = Except.ok c ∧
      (c.token_use = some "id" ∨ c.token_use = some "access") ∧
      c.client_id = some cfg.client_id := by
  unfold validate_token at h
  by_cases h0 : token = ""
  · rw [if_pos h0] at h; exact absurd h (by simp)
  rw [if_neg h0] at h
  by_cases h1 : cfg.user_pool_id = "" ∨ cfg.client_id = ""
  · rw [if_pos h1] at h; exact absurd h (by simp)
  rw [if_neg h1] at h
  rcases hh : env.header token with e | hd
  · simp only [hh] at h; exact absurd h (by simp)
  simp only [hh] at h
  rcases hkid : hd.kid with _ | kid
  · simp only [hkid] at h; exact absurd h (by simp)
  simp only [hkid] at h
  by_cases h2 : kid = ""
  · rw [if_pos h2] at h; exact absurd h (by simp)
  rw [if_neg h2] at h
  rcases hj : env.jwks with _ | ks
  · simp only [hj] at h; exact absurd h (by simp)
  simp only [hj] at h
  rcases hf : ks.find? (fun k => k.kid == some kid) with _ | key
  · simp only [hf] at h; exact absurd h (by simp)
  simp only [hf] at h
  rcases hdec : env.decode token key with e | claims
  · simp only [hdec] at h; exact absurd h (by simp)
  simp only [hdec] at h
  by_cases h3 : claims.token_use = some "id" ∨ claims.token_use = some "access"
  · rw [if_neg (not_not_intro h3)] at h
    by_cases h4 : claims.client_id = some cfg.client_id
    · rw [if_neg (not_not_intro h4)] at h
      have hc : claims = c := by simpa using h
      subst hc
      exact ⟨hd, kid, ks, key, rfl, hkid, rfl, hf, hdec, h3, h4⟩
    · rw [if_pos h4] at h
      exact absurd h (by simp)
  · rw [if_pos h3] at h
    exact absurd h (by simp)

/-- `validate_token` only ever returns `(False, None)` or
`(True, claims)`. -/
theorem validate_token_shape (env : JwtEnv) (cfg : CognitoConfig)
    (token : String) :
    validate_token env cfg token = (false, none)
    ∨ ∃ c, validate_token env cfg token = (true, some c) := by
  unfold validate_token
  repeat' split
  all_goals simp

/-- C7: `validate_token` yields `(False, None)` for every token whose
header key id is absent from the fetched key set, for every token
whose decoded `token_use` claim is outside `{id, access}`, and for
every token whose decoded `client_id` claim differs from the
configured client identifier. -/
theorem C7_validate_token_rejects (env : JwtEnv) (cfg : CognitoConfig)
    (token : String)
    (h :
      (∃ hd kid ks, env.header token = Except.ok hd ∧ hd.kid = some kid ∧
        env.jwks = some ks ∧ ∀ k ∈ ks, k.kid ≠ some kid)
      ∨ (∀ key claims, env.decode token key = Except.ok claims →
          claims.token_use ≠ some "id" ∧ claims.token_use ≠ some "access")
      ∨ (∀ key claims, env.decode token key = Except.ok claims →
          claims.client_id ≠ some cfg.client_id)) :
    validate_token env cfg token = (false, none) := by
  rcases validate_token_shape env cfg token with hs | ⟨c, hs⟩
  · exact hs
  · exfalso
    obtain ⟨hd, kid, ks, key, hh, hk, hj, hf, hdec, hu, hcid⟩ :=
      validate_token_ok_inversion env cfg token c hs
    rcases h with ⟨hd2, kid2, ks2, hh2, hk2, hj2, habs⟩ | hB | hC
    · rw [hh] at hh2
      injection hh2 with e1
      subst e1
      rw [hk] at hk2
      injection hk2 with e2
      subst e2
      rw [hj] at hj2
      injection hj2 with e3
      subst e3
      have hmem : key ∈ ks := List.mem_of_find?_eq_some hf
      have hp := List.find?_some hf
      have hkk : key.kid = some kid := by simpa using hp
      exact habs key hmem hkk
    · rcases hu with h1 | h1
      · exact (hB key c hdec).1 h1
      · exact (hB key c hdec).2 h1
    · exact hC key c hdec hcid

/-- Witness for C7: an environment whose fetched key set is empty, so
the header's key id cannot match. -/
theorem C7_validate_token_rejects_witness :
    validate_token envEmptyKeys cfg1 "some.token" = (false, none) :=
  C7_validate_token_rejects envEmptyKeys cfg1 "some.token"
    (Or.inl ⟨⟨some "kid1"⟩, "kid1", [], rfl, rfl, rfl, by simp⟩)

/-- `sentIds` distributes over append. -/
theorem sentIds_append (a b : List OutEvent) :
    sentIds (a ++ b) = sentIds a ++ sentIds b := by
  simp [sentIds]

/-- Each demuxer step leaves the fresh-id counter non-decreasing. -/
theorem demuxStep_nextId_le (co : Collaborators) (s : DemuxState) (i : Inbound) :
    s.nextId ≤ (demuxStep co s i).st.nextId := by
  cases i with
  | streamEnd => exact Nat.le_refl _
  | recvError m => exact Nat.le_refl _
  | emptyResult => exact Nat.le_refl _
  | frame f =>
    cases f with
    | undecodable raw => exact Nat.le_refl _
    | noEvent raw => exact Nat.le_refl _
    | event raw e =>
      cases e with
      | contentStart a => exact Nat.le_refl _
      | textOutput a b => exact Nat.le_refl _
      | toolUse pl => exact Nat.le_refl _
      | otherEvent t => exact Nat.le_refl _
      | contentEnd ty =>
        by_cases hty : ty = some "TOOL"
        · simp only [demuxStep, if_pos hty]
          rcases hpt : processToolUse co s.toolName s.toolUseContent with e2 | r
          · cases e2 <;> exact Nat.le_refl _
          · exact Nat.le_succ _
        · simp [demuxStep, hty]

/-- Every content name a demuxer step sends is smaller than the
counter it leaves behind. -/
theorem demuxStep_ids_lt (co : Collaborators) (s : DemuxState) (i : Inbound) :
    ∀ n ∈ sentIds (demuxStep co s i).sent, n < (demuxStep co s i).st.nextId := by
  cases i with
  | streamEnd => intro n hn; simp [demuxStep, sentIds] at hn
  | recvError m => intro n hn; simp [demuxStep, sentIds] at hn
  | emptyResult => intro n hn; simp [demuxStep, sentIds] at hn
  | frame f =>
    cases f with
    | undecodable raw => intro n hn; simp [demuxStep, sentIds] at hn
    | noEvent raw => intro n hn; simp [demuxStep, sentIds] at hn
    | event raw e =>
      cases e with
      | contentStart a => intro n hn; simp [demuxStep, sentIds] at hn
      | textOutput a b => intro n hn; simp [demuxStep, sentIds] at hn
      | toolUse pl => intro n hn; simp [demuxStep, sentIds] at hn
      | otherEvent t => intro n hn; simp [demuxStep, sentIds] at hn
      | contentEnd ty =>
        by_cases hty : ty = some "TOOL"
        · simp only [demuxStep, if_pos hty]
          rcases hpt : processToolUse co s.toolName s.toolUseContent with e2 | r
          · cases e2 <;> (intro n hn; simp [sentIds] at hn)
          · intro n hn
            simp only [sentIds, outEventId, List.map_cons, List.map_nil,
              List.mem_cons, List.not_mem_nil, or_false] at hn
            rcases hn with hn | hn | hn <;> (subst hn; exact Nat.lt_succ_self _)
        · intro n hn; simp [demuxStep, hty, sentIds] at hn

/-- Along any demuxer run the counter is non-decreasing and every
sent content name stays below the final counter. -/
theorem demuxRun_ids (co : Collaborators) :
    ∀ (fs : List Inbound) (s : DemuxState),
      s.nextId ≤ (demuxRun co s fs).st.nextId
      ∧ ∀ n ∈ sentIds (demuxRun co s fs).sent,
          n < (demuxRun co s fs).st.nextId := by
  intro fs
  induction fs with
  | nil =>
    intro s
    exact ⟨Nat.le_refl _, by intro n hn; simp [demuxRun, sentIds] at hn⟩
  | cons i rest ih =>
    intro s
    have h1 := demuxStep_nextId_le co s i
    have h2 := demuxStep_ids_lt co s i
    have h3 := ih (demuxStep co s i).st
    simp only [demuxRun]
    rcases hc : (demuxStep co s i).ctl with _ | _
    case next =>
      simp only [hc]
      constructor
      · exact le_trans h1 h3.1
      · intro n hn
        rw [sentIds_append, List.mem_append] at hn
        rcases hn with hn | hn
        · exact lt_of_lt_of_le (h2 n hn) h3.1
        · exact h3.2 n hn
    case exitLoop =>
      simp only [hc]
      exact ⟨h1, h2⟩

/-- A neutral inbound item is processed with no state change, nothing
sent to the stream, and the loop continuing. -/
theorem neutral_demuxStep (co : Collaborators) (s : DemuxState) (i : Inbound)
    (h : neutral i = true) :
    ∃ q, demuxStep co s i = ⟨s, [], q, Ctl.next⟩ := by
  cases i with
  | emptyResult => exact ⟨[], rfl⟩
  | streamEnd => simp [neutral] at h
  | recvError m => simp [neutral] at h
  | frame f =>
    cases f with
    | undecodable raw => exact ⟨_, rfl⟩
    | noEvent raw => exact ⟨_, rfl⟩
    | event raw e =>
      cases e with
      | contentStart a => exact ⟨_, rfl⟩
      | textOutput a b => exact ⟨_, rfl⟩
      | otherEvent t => exact ⟨_, rfl⟩
      | toolUse pl => simp [neutral] at h
      | contentEnd ty =>
        have hne : ty ≠ some "TOOL" := by simpa [neutral] using h
        exact ⟨[OutItem.json (Frame.event raw (ModelEvent.contentEnd ty))],
          by simp [demuxStep, hne]⟩

/-- Running the demuxer over neutral items only relays output and
keeps the state. -/
theorem demuxRun_neutral (co : Collaborators) (gs : List Inbound)
    (hgs : ∀ g ∈ gs, neutral g = true) :
    ∀ s, ∃ q, demuxRun co s gs = ⟨s, [], q, false⟩ := by
  induction gs with
  | nil => intro s; exact ⟨[], rfl⟩
  | cons g rest ih =>
    intro s
    obtain ⟨q1, hq1⟩ := neutral_demuxStep co s g (hgs g (by simp))
    obtain ⟨q2, hq2⟩ := ih (fun g2 hg2 => hgs g2 (by simp [hg2])) s
    refine ⟨q1 ++ q2, ?_⟩
    simp [demuxRun, hq1, hq2]

/-- A run over `fs ++ gs` that does not break during `fs` is the run
over `fs` followed by the run over `gs` from the intermediate state. -/
theorem demuxRun_append (co : Collaborators) (fs gs : List Inbound) :
    ∀ s : DemuxState, (demuxRun co s fs).broke = false →
      demuxRun co s (fs ++ gs) =
        ⟨(demuxRun co (demuxRun co s fs).st gs).st,
         (demuxRun co s fs).sent ++ (demuxRun co (demuxRun co s fs).st gs).sent,
         (demuxRun co s fs).outq ++ (demuxRun co (demuxRun co s fs).st gs).outq,
         (demuxRun co (demuxRun co s fs).st gs).broke⟩ := by
  induction fs with
  | nil =>
    intro s h
    simp [demuxRun]
  | cons i rest ih =>
    intro s h
    simp only [demuxRun] at h ⊢
    rcases hc : (demuxStep co s i).ctl with _ | _
    case next =>
      simp only [hc] at h ⊢
      simp only [List.append_eq]
      rw [ih _ h]
      simp [List.append_assoc]
    case exitLoop =>
      simp only [hc] at h
      simp at h

/-- The demuxer status computation agrees with the claimed condition:
it is `"error"` exactly when the dispatcher result carries
`status == "error"`, and `"success"` otherwise. -/
theorem toolStatus_spec (r : ToolResultDict) :
    (toolStatus r = "error" ↔ lookupJ r "status" = some (JVal.str "error"))
    ∧ (toolStatus r = "error" ∨ toolStatus r = "success") := by
  unfold toolStatus
  rcases h : lookupJ r "status" with _ | v
  · simp
  · rcases v with s | n | es | xs
    · by_cases hs : s = "error"
      · subst hs; simp
      · simp [hs]
    · simp
    · simp
    · simp

/-- C4 (counterexample): the claim's universal quantifier — *every*
toolUse event followed by a contentEnd event of type TOOL yields
exactly one triple — fails when the dispatch raises.  Here a
`getorderstatus` toolUse is followed by a contentEnd(type=TOOL), the
dispatcher raises `AttributeError` (record without a `Name` key), and
the run sends *zero* events to the model stream — not exactly one
triple — while the demuxer loop terminates. -/
theorem C4_counterexample :
    (demuxRun coNoName initDemuxState
        [Inbound.frame (Frame.event "r1" (ModelEvent.toolUse
            ⟨"getorderstatus", "tu1", some jsonOrder⟩)),
         Inbound.frame (Frame.event "r2"
            (ModelEvent.contentEnd (some "TOOL")))]).sent = []
    ∧ (demuxRun coNoName initDemuxState
        [Inbound.frame (Frame.event "r1" (ModelEvent.toolUse
            ⟨"getorderstatus", "tu1", some jsonOrder⟩)),
         Inbound.frame (Frame.event "r2"
            (ModelEvent.contentEnd (some "TOOL")))]).broke = true :=
  ⟨rfl, rfl⟩

/-- C4 (amended): for every `toolUse` event followed (after any
neutral traffic) by a `contentEnd` event of type `TOOL` *for which the
dispatcher returns normally*, exactly one
contentStart/toolResult/contentEnd triple is sent to the model stream,
in that strict order, under a freshly generated content name distinct
from every content name the session sent before (`uuid.uuid4()`
modelled as the fresh-counter supply), and the `toolResult` status is
`"error"` iff the dispatcher result carries `status == "error"`, else
`"success"`.  (When the dispatcher raises instead, no triple is sent —
see the counterexample above and the C2 theorems.) -/
theorem C4_tool_use_triple (co : Collaborators) (s0 : DemuxState)
    (fs gs : List Inbound) (raw1 raw2 : String) (pl : ToolUsePayload)
    (r : ToolResultDict)
    (hnb : (demuxRun co s0 fs).broke = false)
    (hgs : ∀ g ∈ gs, neutral g = true)
    (hdisp : processToolUse co pl.toolName (TUC.payload pl) = Except.ok r) :
    ∃ ro2 : RunOut,
      demuxRun co s0 (fs ++
          (Inbound.frame (Frame.event raw1 (ModelEvent.toolUse pl))
            :: (gs ++ [Inbound.frame (Frame.event raw2
                  (ModelEvent.contentEnd (some "TOOL")))]))) = ro2
      ∧ ro2.broke = false
      ∧ ro2.sent = (demuxRun co s0 fs).sent ++
          [OutEvent.toolContentStart (demuxRun co s0 fs).st.prompt_name
             (demuxRun co s0 fs).st.nextId pl.toolUseId,
           OutEvent.toolResultEvent (demuxRun co s0 fs).st.prompt_name
             (demuxRun co s0 fs).st.nextId r (toolStatus r),
           OutEvent.toolContentEnd (demuxRun co s0 fs).st.prompt_name
             (demuxRun co s0 fs).st.nextId]
      ∧ (demuxRun co s0 fs).st.nextId ∉ sentIds (demuxRun co s0 fs).sent
      ∧ (toolStatus r = "error" ↔ lookupJ r "status" = some (JVal.str "error"))
      ∧ (toolStatus r = "error" ∨ toolStatus r = "success") := by
  have hfresh : (demuxRun co s0 fs).st.nextId ∉ sentIds (demuxRun co s0 fs).sent := by
    intro hmem
    exact absurd ((demuxRun_ids co fs s0).2 _ hmem) (lt_irrefl _)
  set st1 : DemuxState := { (demuxRun co s0 fs).st with
      toolUseContent := TUC.payload pl,
      toolName := pl.toolName, toolUseId := pl.toolUseId } with hst1
  have hs1 : demuxStep co (demuxRun co s0 fs).st
      (Inbound.frame (Frame.event raw1 (ModelEvent.toolUse pl)))
      = ⟨st1, [], [OutItem.json (Frame.event raw1 (ModelEvent.toolUse pl))],
         Ctl.next⟩ := rfl
  have hpt : processToolUse co st1.toolName st1.toolUseContent = Except.ok r := hdisp
  have hstep2 : demuxStep co st1
      (Inbound.frame (Frame.event raw2 (ModelEvent.contentEnd (some "TOOL"))))
      = ⟨{ st1 with nextId := st1.nextId + 1 },
         [OutEvent.toolContentStart st1.prompt_name st1.nextId st1.toolUseId,
          OutEvent.toolResultEvent st1.prompt_name st1.nextId r (toolStatus r),
          OutEvent.toolContentEnd st1.prompt_name st1.nextId],
         [OutItem.json (Frame.event raw2 (ModelEvent.contentEnd (some "TOOL")))],
         Ctl.next⟩ := by
    simp [demuxStep, hpt]
  have hrun1 : demuxRun co st1
      [Inbound.frame (Frame.event raw2 (ModelEvent.contentEnd (some "TOOL")))]
      = ⟨{ st1 with nextId := st1.nextId + 1 },
         [OutEvent.toolContentStart st1.prompt_name st1.nextId st1.toolUseId,
          OutEvent.toolResultEvent st1.prompt_name st1.nextId r (toolStatus r),
          OutEvent.toolContentEnd st1.prompt_name st1.nextId],
         [OutItem.json (Frame.event raw2 (ModelEvent.contentEnd (some "TOOL")))],
         false⟩ := by
    simp [demuxRun, hstep2]
  obtain ⟨q, hq⟩ := demuxRun_neutral co gs hgs st1
  have hbr : (demuxRun co st1 gs).broke = false := by rw [hq]
  have hrun2 := demuxRun_append co gs
    [Inbound.frame (Frame.event raw2 (ModelEvent.contentEnd (some "TOOL")))] st1 hbr
  rw [hq] at hrun2
  simp only at hrun2
  rw [hrun1] at hrun2
  have hrun3 : demuxRun co (demuxRun co s0 fs).st
      (Inbound.frame (Frame.event raw1 (ModelEvent.toolUse pl))
        :: (gs ++ [Inbound.frame (Frame.event raw2
              (ModelEvent.contentEnd (some "TOOL")))]))
      = ⟨{ st1 with nextId := st1.nextId + 1 },
         [OutEvent.toolContentStart st1.prompt_name st1.nextId st1.toolUseId,
          OutEvent.toolResultEvent st1.prompt_name st1.nextId r (toolStatus r),
          OutEvent.toolContentEnd st1.prompt_name st1.nextId],
         [OutItem.json (Frame.event raw1 (ModelEvent.toolUse pl))]
           ++ (q ++ [OutItem.json (Frame.event raw2
                (ModelEvent.contentEnd (some "TOOL")))]),
         false⟩ := by
    simp [demuxRun, hs1, hrun2]
  have hmain := demuxRun_append co fs
    (Inbound.frame (Frame.event raw1 (ModelEvent.toolUse pl))
      :: (gs ++ [Inbound.frame (Frame.event raw2
            (ModelEvent.contentEnd (some "TOOL")))])) s0 hnb
  rw [hrun3] at hmain
  refine ⟨_, hmain, rfl, ?_, hfresh, (toolStatus_spec r).1, (toolStatus_spec r).2⟩
  simp [hst1]

/-- Witness for C4: one toolUse/contentEnd(TOOL) pair processed from
the initial state through the `transfertoliveagent` route. -/
theorem C4_tool_use_triple_witness :
    ∃ ro2 : RunOut,
      demuxRun coTransfer initDemuxState
          ([] ++ (Inbound.frame (Frame.event "r1" (ModelEvent.toolUse
              ⟨"transfertoliveagent", "tuX", some jsonEmpty⟩))
            :: ([] ++ [Inbound.frame (Frame.event "r2"
                  (ModelEvent.contentEnd (some "TOOL")))]))) = ro2
      ∧ ro2.broke = false
      ∧ ro2.sent = (demuxRun coTransfer initDemuxState []).sent ++
          [OutEvent.toolContentStart
             (demuxRun coTransfer initDemuxState []).st.prompt_name
             (demuxRun coTransfer initDemuxState []).st.nextId "tuX",
           OutEvent.toolResultEvent
             (demuxRun coTransfer initDemuxState []).st.prompt_name
             (demuxRun coTransfer initDemuxState []).st.nextId
             [("result", JVal.str "Transferring customer to live agent.")]
             (toolStatus [("result",
                JVal.str "Transferring customer to live agent.")]),
           OutEvent.toolContentEnd
             (demuxRun coTransfer initDemuxState []).st.prompt_name
             (demuxRun coTransfer initDemuxState []).st.nextId]
      ∧ (demuxRun coTransfer initDemuxState []).st.nextId
          ∉ sentIds (demuxRun coTransfer initDemuxState []).sent
      ∧ (toolStatus [("result",
            JVal.str "Transferring customer to live agent.")] = "error"
          ↔ lookupJ [("result",
              JVal.str "Transferring customer to live agent.")] "status"
              = some (JVal.str "error"))
      ∧ (toolStatus [("result",
            JVal.str "Transferring customer to live agent.")] = "error"
          ∨ toolStatus [("result",
              JVal.str "Transferring customer to live agent.")] = "success") :=
  C4_tool_use_triple coTransfer initDemuxState [] [] "r1" "r2"
    ⟨"transfertoliveagent", "tuX", some jsonEmpty⟩
    [("result", JVal.str "Transferring customer to live agent.")]
    rfl (by simp) rfl

/-! ## String lemmas for token extraction -/

/-- `pySplit` on a separator-free list yields that list alone. -/
theorem pySplit_no_sep (c : Char) (l : List Char) (h : c ∉ l) :
    pySplit c l = [l] := by
  induction l with
  | nil => rfl
  | cons x xs ih =>
    have hx : ¬x = c := fun e => h (e ▸ List.mem_cons_self x xs)
    have hxs : c ∉ xs := fun hm => h (List.mem_cons_of_mem x hm)
    simp [pySplit, hx, ih hxs]

/-- `pySplit` at the first separator after a separator-free prefix. -/
theorem pySplit_append_sep (c : Char) (l1 l2 : List Char) (h : c ∉ l1) :
    pySplit c (l1 ++ c :: l2) = l1 :: pySplit c l2 := by
  induction l1 with
  | nil => simp [pySplit]
  | cons x xs ih =>
    have hx : ¬x = c := fun e => h (e ▸ List.mem_cons_self x xs)
    have hxs : c ∉ xs := fun hm => h (List.mem_cons_of_mem x hm)
    simp [pySplit, hx, ih hxs]

/-- A list begins with itself (followed by anything). -/
theorem beginsWith_append (n m : List Char) : beginsWith n (n ++ m) = true := by
  induction n with
  | nil => rfl
  | cons a as ih => simp [beginsWith, ih]

/-- A non-empty needle occurs in any list containing it contiguously. -/
theorem containsSeq_append_self (n l1 m : List Char) (hn : n ≠ []) :
    containsSeq n (l1 ++ (n ++ m)) = true := by
  induction l1 with
  | nil =>
    rcases n with _ | ⟨a, as⟩
    · exact absurd rfl hn
    · simp only [List.nil_append]
      rw [show ((a :: as) ++ m) = a :: (as ++ m) from rfl]
      simp [containsSeq, beginsWith, beginsWith_append]
  | cons x xs ih =>
    simp [containsSeq, ih]

/-- `afterFirst` at the first occurrence of the separator. -/
theorem afterFirst_append (c : Char) (l1 l2 : List Char) (h : c ∉ l1) :
    afterFirst c (l1 ++ c :: l2) = some l2 := by
  induction l1 with
  | nil => simp [afterFirst]
  | cons x xs ih =>
    have hx : ¬x = c := fun e => h (e ▸ List.mem_cons_self x xs)
    have hxs : c ∉ xs := fun hm => h (List.mem_cons_of_mem x hm)
    simp [afterFirst, hx, ih hxs]

/-- `takeBefore` keeps a list free of the separator unchanged. -/
theorem takeBefore_all (c : Char) (l : List Char) (h : ∀ x ∈ l, x ≠ c) :
    takeBefore c l = l := by
  induction l with
  | nil => rfl
  | cons x xs ih =>
    have hx : x ≠ c := h x (List.mem_cons_self x xs)
    have hxs : ∀ x2 ∈ xs, x2 ≠ c := fun x2 hm => h x2 (List.mem_cons_of_mem x hm)
    simp [takeBefore, List.takeWhile_cons, hx]
    exact hxs

/-- `splitAtFirst` at the first occurrence of the separator. -/
theorem splitAtFirst_append (c : Char) (l1 l2 : List Char) (h : c ∉ l1) :
    splitAtFirst c (l1 ++ c :: l2) = some (l1, l2) := by
  induction l1 with
  | nil => simp [splitAtFirst]
  | cons x xs ih =>
    have hx : ¬x = c := fun e => h (e ▸ List.mem_cons_self x xs)
    have hxs : c ∉ xs := fun hm => h (List.mem_cons_of_mem x hm)
    simp [splitAtFirst, hx, ih hxs]

/-- `plusToSpace` is the identity on `+`-free data. -/
theorem plusToSpace_id (l : List Char) (h : ∀ x ∈ l, x ≠ '+') :
    plusToSpace l = l := by
  induction l with
  | nil => rfl
  | cons x xs ih =>
    have hx : ¬x = '+' := h x (List.mem_cons_self x xs)
    have hxs : ∀ x2 ∈ xs, x2 ≠ '+' := fun x2 hm => h x2 (List.mem_cons_of_mem x hm)
    simp [plusToSpace, hx]
    simpa [plusToSpace] using ih hxs

/-- `unquote_plus` is the identity on data free of `%` and `+`. -/
theorem unquoteP_id (l : List Char) (h : ∀ x ∈ l, x ≠ '%' ∧ x ≠ '+') :
    unquoteP l = l := by
  unfold unquoteP
  rw [plusToSpace_id l (fun x hx => (h x hx).2)]
  unfold unquoteL
  rw [pySplit_no_sep '%' l (fun hm => (h _ hm).1 rfl)]
  simp

/-- `pyStrip '/'` on a path of the shape `/<m><t>` where `m` starts
with a non-slash and `t` is non-empty and slash-free. -/
theorem pyStrip_one_slash (m t : List Char)
    (hm : ∀ x, m.head? = some x → x ≠ '/') (hmne : m ≠ [])
    (ht : t ≠ []) (htl : ∀ x ∈ t, x ≠ '/') :
    pyStrip '/' ('/' :: (m ++ t)) = m ++ t := by
  obtain ⟨y, ys, rfl⟩ := List.exists_cons_of_ne_nil hmne
  have hy : ¬y = '/' := hm y rfl
  unfold pyStrip
  have h1 : (('/' :: (y :: ys ++ t)).dropWhile (fun x => decide (x = '/')))
      = y :: ys ++ t := by
    simp [List.dropWhile, hy]
  rw [h1]
  have htr : t.reverse ≠ [] := by simpa using ht
  obtain ⟨w, ws, hw⟩ := List.exists_cons_of_ne_nil htr
  have hwmem : w ∈ t := by
    have : w ∈ t.reverse := by rw [hw]; exact List.mem_cons_self _ _
    simpa using this
  have hwne : ¬w = '/' := htl w hwmem
  rw [show ((y :: ys ++ t).reverse) = t.reverse ++ (y :: ys).reverse by
    rw [List.reverse_append], hw]
  have h2 : (((w :: ws) ++ (y :: ys).reverse).dropWhile
      (fun x => decide (x = '/'))) = (w :: ws) ++ (y :: ys).reverse := by
    simp [List.dropWhile, hwne]
  rw [h2]
  rw [List.reverse_append, List.reverse_reverse, List.reverse_cons]
  have ht2 : t = ws.reverse ++ [w] := by
    rw [← List.reverse_reverse t, hw, List.reverse_cons]
  rw [← ht2]

/-- C5 (counterexample): a JWT-shaped token (90 characters, containing
dots) supplied as the query parameter `?token=...` is *not* extracted
exactly: the whole path is one `/`-separated part that itself passes
the JWT heuristic (contains `.`, longer than 50), so the path scan
returns `"?token=" ++ token` — the token with seven surrounding
characters attached — before the query-string parser ever runs. -/
theorem C5_counterexample :
    extractTokenL (("/?token=").data ++ tok90.data)
      = some (("?token=").data ++ tok90.data)
    ∧ ("?token=").data ++ tok90.data ≠ tok90.data :=
  ⟨by decide, by decide⟩

/-- C5 (amended): extraction returns the exact token substring for the
trailing-segment (`/api/{token}`) and doubled-prefix
(`/api/api/{token}`) placements whenever the token looks like a JWT
(contains `.`, longer than 50 characters, no `/`); for the
query-parameter placement (`/?token=...`) it returns the exact token
only when the combined part `?token=<token>` does *not* itself pass
the JWT heuristic (the token has no `.` or is at most 43 characters
long) and the token is free of URL metacharacters — otherwise the
path scan returns the token with its `?token=` prefix attached (see
the counterexample). -/
theorem C5_token_extraction (t tq : List Char)
    (hdot : '.' ∈ t) (hlen : 50 < t.length) (hsl : ∀ c ∈ t, c ≠ '/')
    (hq0 : tq ≠ [])
    (hq1 : ∀ c ∈ tq, c ≠ '/' ∧ c ≠ '#' ∧ c ≠ '&' ∧ c ≠ '%' ∧ c ≠ '+')
    (hq2 : ¬('.' ∈ tq ∧ 43 < tq.length)) :
    extractTokenL (("/api/").data ++ t) = some t
    ∧ extractTokenL (("/api/api/").data ++ t) = some t
    ∧ extractTokenL (("/?token=").data ++ tq) = some tq := by
  have htne : t ≠ [] := by
    intro he
    rw [he] at hlen
    simp at hlen
  have hslnm : '/' ∉ t := fun hm => hsl '/' hm rfl
  have hpt : (decide ('.' ∈ t) && decide (50 < t.length)) = true := by
    simp [hdot, hlen]
  have hpapi : (decide ('.' ∈ (['a','p','i'] : List Char))
      && decide (50 < (['a','p','i'] : List Char).length)) = false := by decide
  refine ⟨?_, ?_, ?_⟩
  · have hstrip : pyStrip '/' (("/api/").data ++ t) = ['a','p','i','/'] ++ t := by
      rw [show ("/api/").data ++ t = '/' :: (['a','p','i','/'] ++ t) from rfl]
      exact pyStrip_one_slash ['a','p','i','/'] t
        (by intro x hx; simp at hx; subst hx; decide) (by simp) htne hsl
    have hsplit : pySplit '/' (['a','p','i','/'] ++ t) = [['a','p','i'], t] := by
      rw [show (['a','p','i','/'] ++ t : List Char)
          = ['a','p','i'] ++ '/' :: t from rfl]
      rw [pySplit_append_sep '/' ['a','p','i'] t (by decide),
        pySplit_no_sep '/' t hslnm]
    have hfind : (pySplit '/' (pyStrip '/' (("/api/").data ++ t))).find?
        (fun p => decide ('.' ∈ p) && decide (50 < p.length)) = some t := by
      rw [hstrip, hsplit]
      simp [List.find?, hpapi, hpt]
    simp only [extractTokenL, hfind]
  · have hstrip : pyStrip '/' (("/api/api/").data ++ t)
        = ['a','p','i','/','a','p','i','/'] ++ t := by
      rw [show ("/api/api/").data ++ t
          = '/' :: (['a','p','i','/','a','p','i','/'] ++ t) from rfl]
      exact pyStrip_one_slash ['a','p','i','/','a','p','i','/'] t
        (by intro x hx; simp at hx; subst hx; decide) (by simp) htne hsl
    have hsplit : pySplit '/' (['a','p','i','/','a','p','i','/'] ++ t)
        = [['a','p','i'], ['a','p','i'], t] := by
      rw [show (['a','p','i','/','a','p','i','/'] ++ t : List Char)
          = ['a','p','i'] ++ '/' :: (['a','p','i'] ++ '/' :: t) from rfl]
      rw [pySplit_append_sep '/' ['a','p','i'] _ (by decide),
        pySplit_append_sep '/' ['a','p','i'] t (by decide),
        pySplit_no_sep '/' t hslnm]
    have hfind : (pySplit '/' (pyStrip '/' (("/api/api/").data ++ t))).find?
        (fun p => decide ('.' ∈ p) && decide (50 < p.length)) = some t := by
      rw [hstrip, hsplit]
      simp [List.find?, hpapi, hpt]
    simp only [extractTokenL, hfind]
  · have hqsl : '/' ∉ tq := fun hm => (hq1 '/' hm).1 rfl
    have hup : unquoteP tq = tq :=
      unquoteP_id tq (fun x hx => ⟨(hq1 x hx).2.2.2.1, (hq1 x hx).2.2.2.2⟩)
    have hstrip : pyStrip '/' (("/?token=").data ++ tq)
        = ['?','t','o','k','e','n','='] ++ tq := by
      rw [show ("/?token=").data ++ tq
          = '/' :: (['?','t','o','k','e','n','='] ++ tq) from rfl]
      exact pyStrip_one_slash ['?','t','o','k','e','n','='] tq
        (by intro x hx; simp at hx; subst hx; decide) (by simp) hq0
        (fun x hx => (hq1 x hx).1)
    have hsplit : pySplit '/' (['?','t','o','k','e','n','='] ++ tq)
        = [['?','t','o','k','e','n','='] ++ tq] := by
      apply pySplit_no_sep
      intro hm
      rcases List.mem_append.mp hm with h | h
      · exact absurd h (by decide)
      · exact hqsl h
    have hpred : (decide ('.' ∈ (['?','t','o','k','e','n','='] ++ tq))
        && decide (50 < (['?','t','o','k','e','n','='] ++ tq).length)) = false := by
      by_cases hd : '.' ∈ tq
      · have hlen2 : tq.length ≤ 43 := by
          by_contra hh
          push_neg at hh
          exact hq2 ⟨hd, hh⟩
        have hno50 : ¬(50 < (['?','t','o','k','e','n','='] ++ tq).length) := by
          simp
          omega
        simp [hno50]
        exact fun _ => hlen2
      · have hno : '.' ∉ ['?','t','o','k','e','n','='] ++ tq := by
          intro hm
          rcases List.mem_append.mp hm with h | h
          · exact absurd h (by decide)
          · exact hd h
        simp [hno]
        exact fun hcon => absurd hcon hd
    have hfindnone : (pySplit '/' (pyStrip '/' (("/?token=").data ++ tq))).find?
        (fun p => decide ('.' ∈ p) && decide (50 < p.length)) = none := by
      rw [hstrip, hsplit]
      simp only [List.find?]
      rw [hpred]
    have hcond : (decide ('?' ∈ ("/?token=").data ++ tq)
        && containsSeq ("token=").data (("/?token=").data ++ tq)) = true := by
      have h1 : '?' ∈ ("/?token=").data ++ tq := by
        rw [show ("/?token=").data ++ tq
            = '/' :: '?' :: (['t','o','k','e','n','='] ++ tq) from rfl]
        simp
      simp [h1]
      exact containsSeq_append_self ['t','o','k','e','n','='] ['/','?'] tq
        (by decide)
    have hnohash : ∀ x ∈ ("http://dummy").data ++ (("/?token=").data ++ tq),
        x ≠ '#' := by
      intro x hx
      rcases List.mem_append.mp hx with h | h
      · exact (by decide : ∀ y ∈ ("http://dummy").data, y ≠ '#') x h
      · rcases List.mem_append.mp h with h2 | h2
        · exact (by decide : ∀ y ∈ ("/?token=").data, y ≠ '#') x h2
        · exact (hq1 x h2).2.1
    have hafter : afterFirst '?'
        (takeBefore '#' (("http://dummy").data ++ (("/?token=").data ++ tq)))
        = some (("token=").data ++ tq) := by
      rw [takeBefore_all '#' _ hnohash]
      rw [show ("http://dummy").data ++ (("/?token=").data ++ tq)
          = ("http://dummy/").data ++ '?' :: (("token=").data ++ tq) from rfl]
      exact afterFirst_append '?' _ _ (by decide)
    have hquery : extract_query (("/?token=").data ++ tq)
        = ("token=").data ++ tq := by
      unfold extract_query
      rw [if_pos (show (("/?token=").data ++ tq).head? = some '/' by rfl)]
      unfold urlQuery
      rw [hafter]
    have hsplitamp : pySplit '&' ('t' :: 'o' :: 'k' :: 'e' :: 'n' :: '=' :: tq)
        = ['t' :: 'o' :: 'k' :: 'e' :: 'n' :: '=' :: tq] := by
      apply pySplit_no_sep
      intro hm
      rw [show ('t' :: 'o' :: 'k' :: 'e' :: 'n' :: '=' :: tq)
          = ("token=").data ++ tq from rfl] at hm
      rcases List.mem_append.mp hm with h | h
      · exact absurd h (by decide)
      · exact (hq1 '&' h).2.2.1 rfl
    have hsf : splitAtFirst '=' ('t' :: 'o' :: 'k' :: 'e' :: 'n' :: '=' :: tq)
        = some (("token").data, tq) := by
      rw [show ('t' :: 'o' :: 'k' :: 'e' :: 'n' :: '=' :: tq)
          = ("token").data ++ '=' :: tq from rfl]
      exact splitAtFirst_append '=' _ _ (by decide)
    have hpq : parse_qsl ('t' :: 'o' :: 'k' :: 'e' :: 'n' :: '=' :: tq)
        = [(("token").data, tq)] := by
      unfold parse_qsl
      rw [hsplitamp]
      simp only [List.filterMap_cons, List.filterMap_nil, hsf]
      rw [if_neg hq0]
      rw [show unquoteP ("token").data = ("token").data from rfl, hup]
    have hqsget : qsGet ("token").data ('t' :: 'o' :: 'k' :: 'e' :: 'n' :: '=' :: tq)
        = some tq := by
      unfold qsGet
      rw [hpq]
      simp
    simp only [extractTokenL, hfindnone]
    rw [if_pos hcond, hquery]
    rw [show (("token=").data ++ tq) = ('t' :: 'o' :: 'k' :: 'e' :: 'n' :: '=' :: tq)
      from rfl]
    simp only [hqsget]

/-- Witness for the amended C5: the 90-character dotted token in both
path placements, and a short dotted token in the query placement. -/
theorem C5_token_extraction_witness :
    extractTokenL (("/api/").data ++ tok90.data) = some tok90.data
    ∧ extractTokenL (("/api/api/").data ++ tok90.data) = some tok90.data
    ∧ extractTokenL (("/?token=").data ++ ("ab.cd").data) = some ("ab.cd").data :=
  C5_token_extraction tok90.data ("ab.cd").data (by decide) (by decide)
    (by decide) (by decide) (by decide) (by decide)

end S2S


